import Mathlib

/-!
Shallow embedding of the message/widget reflection engine of ignition::gui
(`MessageWidget.cc`), of the GUI event type tags (`GuiEvents.hh`) and of the
render bridge (`Scene3D.hh`; its implementation file is not part of the
sources, so that component is modelled from the specification).

Conventions of the embedding:
* C++ `double` values carried by protobuf fields are modelled by `Dbl`:
  NaN, positive or negative infinity, or an exact rational value.  The code
  never does arithmetic on them, it only moves them around and applies the
  `math::equal(value, value)` self-comparison, which is false both for NaN
  and for the infinities (|inf - inf| = NaN is not below the epsilon).
* 32-bit machine integer conversions are explicit (`wrap32s`, `wrap32u`).
* Undefined behaviour (dereferencing a null pointer obtained from a failed
  `qobject_cast`/`dynamic_cast`, indexing a vector out of range, protobuf
  reflection `CHECK` failures such as `GetDouble` on a non-double field) is
  modelled by `Option`: `none` is a crash.  Protobuf reflection getters and
  setters `CHECK` that the field is singular and of the right type.
* A registry widget bound at a scoped name is mutated in place in C++; here
  the registry (an association list mirroring `configWidgets`) is updated
  functionally.
-/

set_option maxHeartbeats 1600000

/-- A C++ double as seen by the reflection engine: NaN, positive infinity,
negative infinity, or an exact (finite) value. -/
inductive Dbl where
  | nan
  | pinf
  | ninf
  | num (v : Rat)
  deriving DecidableEq

/-- C++ conversion of a 64-bit unsigned value to a 32-bit `unsigned int`
(`unsigned int value = ref->GetUInt64(*_msg, field);`). -/
def wrap32u (n : Nat) : Nat := n % 2 ^ 32

/-- C++ conversion of a 64-bit signed value to a 32-bit `int`
(`int value = ref->GetInt64(*_msg, field);`), two's complement wrap. -/
def wrap32s (i : Int) : Int := (i + 2 ^ 31) % 2 ^ 32 - 2 ^ 31

mutual
/-- The value of one protobuf field, tagged with its descriptor type
(`FieldDescriptor::TYPE_*`).  `fEnum` carries the current enum value's name
and the names of the enum descriptor's values; `fMessage` carries the
sub-message type name (`message_type()->name()`) and the sub-message.
`fOther` stands for the scalar types the switch in `Parse`/`UpdateMsg` does
not handle (`bytes`, `fixed32`, ...), which fall to `default: break`. -/
inductive FieldVal where
  | fDouble (v : Dbl)
  | fFloat (v : Dbl)
  | fInt64 (v : Int)
  | fUInt64 (v : Nat)
  | fInt32 (v : Int)
  | fUInt32 (v : Nat)
  | fBool (b : Bool)
  | fString (s : String)
  | fEnum (cur : String) (vals : List String)
  | fMessage (typeName : String) (sub : Msg)
  | fOther

/-- One field of a message: its descriptor data (name, `is_repeated`) together
with its reflection data (`HasField` observation, value).  `null` models a
null `FieldDescriptor *` returned by `d->field(i)`. -/
inductive MField where
  | null
  | mk (name : String) (isRep : Bool) (hasBit : Bool) (val : FieldVal)

/-- A protobuf message: whether `GetDescriptor()` and `GetReflection()` return
non-null pointers, and the field list.  ignition msgs are proto3: scalar
fields carry no presence bit of their own, so `hasBit` in `MField` records
the `HasField` observation on the message as given, and the modelled setters
replace the value only. -/
inductive Msg where
  | mk (validDesc : Bool) (validRefl : Bool) (fields : List MField)
end

def Msg.validDesc : Msg → Bool
  | .mk d _ _ => d

def Msg.validRefl : Msg → Bool
  | .mk _ r _ => r

def Msg.fields : Msg → List MField
  | .mk _ _ fs => fs

/-- Access `d->field(i)`: `none` when `i` is out of range (protobuf returns null). -/
def Msg.fieldAt (m : Msg) (i : Nat) : Option MField := m.fields.get? i

/-- Reflection GetDouble: CHECK-fails unless the field is a singular
double; `none` also covers calling it on a null field descriptor. -/
def getDouble : MField → Option Dbl
  | .mk _ false _ (.fDouble v) => some v
  | _ => none

/-- The value stored by one widget.  `wEnum` is the combo box: item list and
current index (-1 when nothing is selected).  `wPose` is the six spin boxes
of a `Pose3dWidget` (x, y, z, roll, pitch, yaw), `wVector3` and `wColor` the
spin boxes of `Vector3dWidget`/`ColorWidget`, `wGeometry` the stored message
copy of a `GeometryWidget`, `wDensity` the density value, `wGroup` the plain
`PropertyWidget` wrapper created for a generic nested message. -/
inductive WVal where
  | wDouble (v : Rat)
  | wInt (v : Int)
  | wUInt (v : Nat)
  | wBool (b : Bool)
  | wString (s : String)
  | wEnum (items : List String) (idx : Int)
  | wPose (x y z roll pitch yaw : Dbl)
  | wVector3 (x y z : Dbl)
  | wColor (r g b a : Dbl)
  | wGeometry (sub : Msg)
  | wDensity (d : Dbl)
  | wGroup

/-- A property widget as stored in the scoped-name registry: its value, its
Qt enabled state (read-only widgets are disabled; the collapsible parent's
enabled state, which `WidgetReadOnly`/`SetWidgetReadOnly` keep in sync with
the child's, is folded into this one flag) and its `scopedName` member. -/
structure Widget where
  val : WVal
  enabled : Bool
  scopedName : String

/-- The `configWidgets` map of `MessageWidgetPrivate`: unique scoped names to
widgets. -/
abbrev Registry := List (String × Widget)

/-- Lookup `configWidgets.find(name)`. -/
def findW : Registry → String → Option Widget
  | [], _ => none
  | (k, w) :: r, n => if k = n then some w else findW r n

/-- In-place mutation of the widget stored under a name (C++ mutates the
widget object through the stored pointer). -/
def updateW : Registry → String → (Widget → Widget) → Registry
  | [], _, _ => []
  | (k, w) :: r, n, f =>
    if k = n then (k, f w) :: updateW r n f else (k, w) :: updateW r n f

/-- MessageWidget::AddPropertyWidget (MessageWidget.cc:1196-1222): rejects an
empty name or a null child, rejects a name that is already registered, and
otherwise stores the child under the name (setting its `scopedName`). -/
def addPropertyWidget (reg : Registry) (name : String) (child : Option Widget) :
    Registry × Bool :=
  match child with
  | none => (reg, false)
  | some c =>
    if name = "" then (reg, false)
    else if (findW reg name).isSome then (reg, false)
    else (reg ++ [(name, { c with scopedName := name })], true)

/-- MessageWidget::WidgetReadOnly (MessageWidget.cc:151-163): a widget is
read-only when it (or its collapsible parent, folded into the single flag
here) is disabled; an unknown name yields false. -/
def widgetReadOnly (reg : Registry) (name : String) : Bool :=
  match findW reg name with
  | some w => !w.enabled
  | none => false

/-- Qt QComboBox findText: index of the first item with the given text,
-1 when absent. -/
def findTextIdx (items : List String) (t : String) : Int :=
  match items.findIdx? (· = t) with
  | some i => (i : Int)
  | none => -1

/-- Qt QComboBox currentText: empty when the current index is out of range. -/
def currentTextAt (items : List String) (idx : Int) : String :=
  if idx < 0 then "" else (items.get? idx.toNat).getD ""

/-- MessageWidget::UpdateEnumWidget (MessageWidget.cc:1114-1142): fails unless
the widget holds exactly one sub-widget that is a combo box (in this model,
unless it is an enum widget); fails when the text is not among the items,
leaving the selection as it was; otherwise selects the item. -/
def updateEnumWidget (w : Widget) (value : String) : Widget × Bool :=
  match w.val with
  | .wEnum items _ =>
    let index := findTextIdx items value
    if index < 0 then (w, false)
    else ({ w with val := .wEnum items index }, true)
  | _ => (w, false)

/-- MessageWidget::SetEnumWidgetValue (MessageWidget.cc:213-222): look the
widget up by scoped name and delegate to `UpdateEnumWidget`. -/
def setEnumWidgetValue (reg : Registry) (name value : String) : Registry × Bool :=
  match findW reg name with
  | none => (reg, false)
  | some w =>
    let p := updateEnumWidget w value
    (updateW reg name (fun _ => p.1), p.2)

/-- The current index after `QComboBox::addItem`: appending to an empty combo
box makes the new (first) item current. -/
def addItemIdx (items : List String) (idx : Int) : Int :=
  if items.isEmpty then 0 else idx

/-- MessageWidget::AddItemEnumWidget (MessageWidget.cc:1367-1397): unknown
name yields false; the stored widget is `dynamic_cast` to `EnumWidget` and
dereferenced without a null check, so a non-enum widget is a crash (`none`).
Appending to an empty combo box makes the new item current. -/
def addItemEnumWidget (reg : Registry) (name itemText : String) :
    Option (Registry × Bool) :=
  match findW reg name with
  | none => some (reg, false)
  | some w =>
    match w.val with
    | .wEnum items idx =>
      some (updateW reg name
        (fun u => { u with val := .wEnum (items ++ [itemText]) (addItemIdx items idx) }), true)
    | _ => none

/-- MessageWidget::UpdateDensityWidget (MessageWidget.cc:1145-1157):
`qobject_cast` to `DensityWidget` is null-checked, so a non-density widget
just yields false. -/
def updateDensityWidget (w : Widget) (value : Dbl) : Widget × Bool :=
  match w.val with
  | .wDensity _ => ({ w with val := .wDensity value }, true)
  | _ => (w, false)

/-- Modelled from the spec: the `SetValue`/`Value` protocol of the
`PropertyWidget` subclasses (spec "Widget value protocol"; `BoolWidget.cc`,
`NumberWidget.cc`, ... are not among the sources).  Each control stores the
last value set on it and only accepts values of its own kind. -/
def setWVal (w : Widget) (v : WVal) : Widget :=
  match w.val, v with
  | .wDouble _, .wDouble q => { w with val := .wDouble q }
  | .wInt _, .wInt i => { w with val := .wInt i }
  | .wUInt _, .wUInt n => { w with val := .wUInt n }
  | .wBool _, .wBool b => { w with val := .wBool b }
  | .wString _, .wString s => { w with val := .wString s }
  | .wPose _ _ _ _ _ _, .wPose a b c d e f => { w with val := .wPose a b c d e f }
  | .wVector3 _ _ _, .wVector3 a b c => { w with val := .wVector3 a b c }
  | .wColor _ _ _ _, .wColor r g b a => { w with val := .wColor r g b a }
  | .wGeometry _, .wGeometry m => { w with val := .wGeometry m }
  | _, _ => w

/-- The scoped name of a field: `_name.empty() ? name : _name + "::" + name`. -/
def scopedNameOf (pname fname : String) : String :=
  if pname = "" then fname else pname ++ "::" ++ fname

/-- The check `if (!math::equal(value, value)) value = 0;` (MessageWidget.cc:
315, 342).  `math::equal(a, b)` is the epsilon comparison `|a - b| <= eps`;
for NaN and for both infinities `value - value` is NaN, the comparison is
false, and the value is replaced by 0. -/
def sanitizeD : Dbl → Rat
  | .nan => 0
  | .pinf => 0
  | .ninf => 0
  | .num q => q

/-- MessageWidget::ParseVector3d (MessageWidget.cc:707-725): reads descriptor
fields 1, 2, 3 ("FIX: skipping header") as x, y, z via `GetDouble`.  A null
descriptor/reflection, a missing field or a field that is not a singular
double is a crash. -/
def parseVec3 (m : Msg) : Option (Dbl × Dbl × Dbl) :=
  if m.validDesc && m.validRefl then
    match (m.fieldAt 1).bind getDouble, (m.fieldAt 2).bind getDouble,
        (m.fieldAt 3).bind getDouble with
    | some a, some b, some c => some (a, b, c)
    | _, _, _ => none
  else none

/-- The Quaternion read in Parse's Pose branch (MessageWidget.cc:483-494):
reads descriptor fields 1..4 ("FIXME: skipping header") as x, y, z, w and
builds the quaternion `(w, x, y, z)` — returned here in that order. -/
def parseQuatVal (m : Msg) : Option (Dbl × Dbl × Dbl × Dbl) :=
  if m.validDesc && m.validRefl then
    match (m.fieldAt 1).bind getDouble, (m.fieldAt 2).bind getDouble,
        (m.fieldAt 3).bind getDouble, (m.fieldAt 4).bind getDouble with
    | some x, some y, some z, some w => some (w, x, y, z)
    | _, _, _, _ => none
  else none

/-- The loop of Parse's Pose branch (MessageWidget.cc:462-500) over the pose
message's fields: message-typed fields named `Vector3d`/`Quaternion` set the
position/rotation, everything else (the header) is skipped.  A null field
descriptor crashes (`valueField->type()` is called unchecked), and
`MutableMessage` CHECK-fails on a repeated field or a null reflection. -/
def poseFold (vr : Bool) (fs : List MField)
    (acc : (Dbl × Dbl × Dbl) × (Dbl × Dbl × Dbl × Dbl)) :
    Option ((Dbl × Dbl × Dbl) × (Dbl × Dbl × Dbl × Dbl)) :=
  match fs with
  | [] => some acc
  | .null :: _ => none
  | .mk _ isRep _ val :: rest =>
    match val with
    | .fMessage tn sub =>
      if tn = "Vector3d" then
        if vr && !isRep then
          match parseVec3 sub with
          | some v => poseFold vr rest (v, acc.2)
          | none => none
        else none
      else if tn = "Quaternion" then
        if vr && !isRep then
          match parseQuatVal sub with
          | some q => poseFold vr rest (acc.1, q)
          | none => none
        else none
      else poseFold vr rest acc
    | _ => poseFold vr rest acc

/-- Parse's Pose branch (MessageWidget.cc:451-505): walk the pose message's
fields starting from the default `math::Pose3d` (origin, identity rotation
`(w,x,y,z) = (1,0,0,0)`). -/
def parsePoseVal (m : Msg) :
    Option ((Dbl × Dbl × Dbl) × (Dbl × Dbl × Dbl × Dbl)) :=
  if m.validDesc then
    poseFold m.validRefl m.fields
      ((.num 0, .num 0, .num 0), (.num 1, .num 0, .num 0, .num 0))
  else none

/-- One colour channel read in Parse's Color branch (MessageWidget.cc:535-546):
`HasField` then `GetFloat` on descriptor field `j`, defaulting to 0 for an
unset field.  `HasField`/`GetFloat` CHECK-fail on a missing/null/repeated
field, `GetFloat` on a non-float one. -/
def colorAt (m : Msg) (j : Nat) : Option Dbl :=
  match m.fieldAt j with
  | some (.mk _ false hb v) =>
    if hb then
      match v with
      | .fFloat x => some x
      | _ => none
    else some (.num 0)
  | _ => none

/-- Parse's Color branch (MessageWidget.cc:523-555): reads descriptor fields
1..4 ("FIXME: skipping header", the loop bound being the colour widget's four
spin boxes) as r, g, b, a. -/
def parseColorVal (m : Msg) : Option (Dbl × Dbl × Dbl × Dbl) :=
  if m.validDesc && m.validRefl then
    match colorAt m 1, colorAt m 2, colorAt m 3, colorAt m 4 with
    | some r, some g, some b, some a => some (r, g, b, a)
    | _, _, _, _ => none
  else none

/-- The loop of Parse's Density branch (MessageWidget.cc:568-576): the last
field named "density" provides the value via `GetDouble` (null fields are
explicitly skipped by the `if (valueField && ...)` check). -/
def densityFold (vr : Bool) (fs : List MField) (acc : Dbl) : Option Dbl :=
  match fs with
  | [] => some acc
  | .null :: rest => densityFold vr rest acc
  | .mk n isRep _ v :: rest =>
    if n = "density" then
      if vr then
        match v, isRep with
        | .fDouble d, false => densityFold vr rest d
        | _, _ => none
      else none
    else densityFold vr rest acc

/-- Parse's Density branch value (MessageWidget.cc:564-577), starting from the
default density 1.0. -/
def parseDensityVal (m : Msg) : Option Dbl :=
  if m.validDesc then densityFold m.validRefl m.fields (.num 1) else none

/-- The widget freshly created by `CreateEnumWidget` (MessageWidget.cc:728-768)
for the given item list: the combo box selects the first item when the list
is non-empty. -/
def freshEnumWidget (vals : List String) : Widget :=
  { val := .wEnum vals (if vals.isEmpty then -1 else 0), enabled := true,
    scopedName := "" }

/-- The shared tail of the scalar cases of Parse: `SetValue` on the existing
widget found under the scoped name, or create the widget, `SetValue` it and
register it with `AddPropertyWidget`. -/
def parseLeaf (reg : Registry) (scopedName : String) (existing : Option Widget)
    (v : WVal) : Registry :=
  match existing with
  | some _ => updateW reg scopedName (fun w => setWVal w v)
  | none =>
    (addPropertyWidget reg scopedName
      (some { val := v, enabled := true, scopedName := "" })).1

/-- The specialized message sub-types of the switch in Parse/UpdateMsg
(MessageWidget.cc:437, 451, 507, 523, 557 and 947, 954, 1014, 1026, 1039). -/
def isSpecialMsgType (tn : String) : Bool :=
  tn = "Geometry" || tn = "Pose" || tn = "Vector3d" || tn = "Color" ||
    tn = "Density"

/-- One iteration of Parse's switch (MessageWidget.cc:310-652) for a field
that does not recurse: every scalar type, enums, and the specialized message
sub-types.  Returns the updated registry and whether a new widget was pushed
onto `newWidgets`; `none` is a crash.  Generic nested messages recurse and
are handled in `parseFields` itself.  For the Color branch the loop bound is
the bound widget's spin-box count, so an existing widget of another kind
makes the later `values[0..3]` accesses undefined. -/
def parseFieldNonRec (q2e : Dbl × Dbl × Dbl × Dbl → Dbl × Dbl × Dbl)
    (reg : Registry) (scopedName : String) (existing : Option Widget) :
    FieldVal → Option (Registry × Bool)
  | .fDouble v =>
    some (parseLeaf reg scopedName existing (.wDouble (sanitizeD v)),
      existing.isNone)
  | .fFloat v =>
    some (parseLeaf reg scopedName existing (.wDouble (sanitizeD v)),
      existing.isNone)
  | .fInt64 v =>
    some (parseLeaf reg scopedName existing (.wInt (wrap32s v)),
      existing.isNone)
  | .fUInt64 v =>
    some (parseLeaf reg scopedName existing (.wUInt (wrap32u v)),
      existing.isNone)
  | .fInt32 v =>
    some (parseLeaf reg scopedName existing (.wInt v), existing.isNone)
  | .fUInt32 v =>
    some (parseLeaf reg scopedName existing (.wUInt v), existing.isNone)
  | .fBool b =>
    some (parseLeaf reg scopedName existing (.wBool b), existing.isNone)
  | .fString str =>
    some (parseLeaf reg scopedName existing (.wString str), existing.isNone)
  | .fEnum cur vals =>
    match existing with
    | some _ =>
      some (updateW reg scopedName (fun w => (updateEnumWidget w cur).1),
        false)
    | none =>
      some ((addPropertyWidget reg scopedName
        (some (updateEnumWidget (freshEnumWidget vals) cur).1)).1, true)
  | .fOther => some (reg, false)
  | .fMessage tn sub =>
    if tn = "Geometry" then
      some (parseLeaf reg scopedName existing (.wGeometry sub),
        existing.isNone)
    else if tn = "Pose" then
      match parsePoseVal sub with
      | none => none
      | some pq =>
        some (parseLeaf reg scopedName existing
          (.wPose pq.1.1 pq.1.2.1 pq.1.2.2 (q2e pq.2).1 (q2e pq.2).2.1
            (q2e pq.2).2.2), existing.isNone)
    else if tn = "Vector3d" then
      match parseVec3 sub with
      | none => none
      | some v =>
        some (parseLeaf reg scopedName existing
          (.wVector3 v.1 v.2.1 v.2.2), existing.isNone)
    else if tn = "Color" then
      match existing with
      | some w =>
        match w.val with
        | .wColor _ _ _ _ =>
          match parseColorVal sub with
          | none => none
          | some c =>
            some (updateW reg scopedName
              (fun u => setWVal u (.wColor c.1 c.2.1 c.2.2.1 c.2.2.2)), false)
        | _ => none
      | none =>
        match parseColorVal sub with
        | none => none
        | some c =>
          some ((addPropertyWidget reg scopedName
            (some { val := WVal.wColor c.1 c.2.1 c.2.2.1 c.2.2.2,
                    enabled := true, scopedName := "" })).1, true)
    else if tn = "Density" then
      match parseDensityVal sub with
      | none => none
      | some d =>
        match existing with
        | some _ =>
          some (updateW reg scopedName
            (fun u => (updateDensityWidget u d).1), false)
        | none =>
          some ((addPropertyWidget reg scopedName
            (some (updateDensityWidget
              { val := WVal.wDensity (.num 1), enabled := true,
                scopedName := "" } d).1)).1, true)
    else none

mutual
/-- MessageWidget::Parse (MessageWidget.cc:265-704).  `q2e` abstracts the
rotation-to-Euler conversion performed by `Pose3dWidget::SetValue` when the
parsed pose is displayed in the six spin boxes (quaternion `(w,x,y,z)` to
`(roll,pitch,yaw)`).  The result is the updated registry together with
whether a non-null widget was returned (`newWidgets` non-empty); `none` is a
crash.  A null descriptor returns null immediately. -/
def parseMsg (q2e : Dbl × Dbl × Dbl × Dbl → Dbl × Dbl × Dbl) (reg : Registry)
    (m : Msg) (update : Bool) (pname : String) (level : Nat) :
    Option (Registry × Bool) :=
  match m with
  | .mk vd vr fs =>
    if vd then parseFields q2e reg vr fs update pname level false
    else some (reg, false)
termination_by sizeOf m

/-- The field loop of MessageWidget::Parse (MessageWidget.cc:276-683).
`vr` is whether `GetReflection()` is non-null; `acc` is whether `newWidgets`
is already non-empty.  A null field descriptor or a null reflection makes
the whole call return null (the widgets registered so far stay registered).
Repeated fields are skipped, and in update mode so is every field whose
`HasField` test fails.  The non-recursive switch cases are in
`parseFieldNonRec`; a generic nested message recurses and, when new and
non-null, is wrapped and registered under its scoped name. -/
def parseFields (q2e : Dbl × Dbl × Dbl × Dbl → Dbl × Dbl × Dbl)
    (reg : Registry) (vr : Bool) (fs : List MField) (update : Bool)
    (pname : String) (level : Nat) (acc : Bool) : Option (Registry × Bool) :=
  match fs with
  | [] => some (reg, acc)
  | .null :: _ => some (reg, false)
  | .mk fname isRep hasBit val :: rest =>
    if !vr then some (reg, false)
    else if isRep then parseFields q2e reg vr rest update pname level acc
    else if update && !hasBit then
      parseFields q2e reg vr rest update pname level acc
    else
      match val with
      | .fMessage tn sub =>
        if isSpecialMsgType tn then
          match parseFieldNonRec q2e reg (scopedNameOf pname fname)
              (findW reg (scopedNameOf pname fname)) (.fMessage tn sub) with
          | none => none
          | some rp => parseFields q2e rp.1 vr rest update pname level (acc || rp.2)
        else
          match parseMsg q2e reg sub update (scopedNameOf pname fname)
              (level + 1) with
          | none => none
          | some rn =>
            if (findW reg (scopedNameOf pname fname)).isNone && rn.2 then
              parseFields q2e
                ((addPropertyWidget rn.1 (scopedNameOf pname fname)
                  (some { val := WVal.wGroup, enabled := true,
                          scopedName := "" })).1)
                vr rest update pname level true
            else parseFields q2e rn.1 vr rest update pname level acc
      | v =>
        match parseFieldNonRec q2e reg (scopedNameOf pname fname)
            (findW reg (scopedNameOf pname fname)) v with
        | none => none
        | some rp => parseFields q2e rp.1 vr rest update pname level (acc || rp.2)
termination_by sizeOf fs
end

/-- Qt QVariant toDouble on a widget's stored value (numeric variants
convert, anything else yields 0). -/
def wvToDouble : WVal → Dbl
  | .wDouble q => .num q
  | .wInt i => .num i
  | .wUInt n => .num n
  | .wBool b => .num (if b then 1 else 0)
  | _ => .num 0

/-- Qt QVariant toInt on a widget's stored value; the variant holds a 32-bit
int, so the result is wrapped. -/
def wvToInt : WVal → Int
  | .wInt i => wrap32s i
  | .wUInt n => wrap32s n
  | .wDouble q => wrap32s (round q)
  | .wBool b => if b then 1 else 0
  | _ => 0

/-- Qt QVariant toUInt on a widget's stored value (32-bit unsigned). -/
def wvToUInt : WVal → Nat
  | .wUInt n => wrap32u n
  | .wInt i => (i % 2 ^ 32).toNat
  | .wDouble q => wrap32u (round q).toNat
  | .wBool b => if b then 1 else 0
  | _ => 0

/-- Qt QVariant toBool on a widget's stored value. -/
def wvToBool : WVal → Bool
  | .wBool b => b
  | .wInt i => i != 0
  | .wUInt n => n != 0
  | .wDouble q => q != 0
  | _ => false

/-- Reflection SetDouble at list index `i` as done by UpdateVector3dMsg
(MessageWidget.cc:1100-1110): a missing or null field crashes
(`valueField->type()` is called unchecked), a non-double field is logged as
"Bad field" and skipped, and the write itself CHECK-fails on a repeated
field or a null reflection. -/
def setDblAt (vr : Bool) (fs : List MField) (i : Nat) (v : Dbl) :
    Option (List MField) :=
  match fs.get? i with
  | none => none
  | some .null => none
  | some (.mk n isRep hb (.fDouble _)) =>
    if vr && !isRep then some (fs.set i (.mk n isRep hb (.fDouble v)))
    else none
  | some (.mk _ _ _ _) => some fs

/-- Reflection SetDouble at list index `i` with no type pre-check, as done by the
Quaternion branch of UpdateMsg (MessageWidget.cc:1000-1006) and by the
Density branch: any mismatch (missing, null, repeated or non-double field,
null reflection) is a CHECK failure. -/
def setDblStrictAt (vr : Bool) (fs : List MField) (i : Nat) (v : Dbl) :
    Option (List MField) :=
  match fs.get? i with
  | some (.mk n false hb (.fDouble _)) =>
    if vr then some (fs.set i (.mk n false hb (.fDouble v))) else none
  | _ => none

/-- Reflection SetFloat at list index `i`, as done by the Color branch of UpdateMsg
(MessageWidget.cc:1030-1037): no pre-check, CHECK failure on mismatch. -/
def setFltAt (vr : Bool) (fs : List MField) (i : Nat) (v : Dbl) :
    Option (List MField) :=
  match fs.get? i with
  | some (.mk n false hb (.fFloat _)) =>
    if vr then some (fs.set i (.mk n false hb (.fFloat v))) else none
  | _ => none

/-- MessageWidget::UpdateVector3dMsg (MessageWidget.cc:1090-1111): writes
x, y, z into descriptor fields 1..3 ("FIXME: skipping header"). -/
def updateVec3Msg (m : Msg) (v : Dbl × Dbl × Dbl) : Option Msg :=
  match m with
  | .mk vd vr fs =>
    if vd then
      (setDblAt vr fs 1 v.1).bind fun fs1 =>
      (setDblAt vr fs1 2 v.2.1).bind fun fs2 =>
      (setDblAt vr fs2 3 v.2.2).map (Msg.mk vd vr)
    else none

/-- The Quaternion branch of UpdateMsg (MessageWidget.cc:988-1006): writes
the quaternion's x, y, z, w into descriptor fields 1..4 ("FIXME: skipping
header").  `q` is `(x, y, z, w)`. -/
def updateQuatMsg (q : Dbl × Dbl × Dbl × Dbl) (m : Msg) : Option Msg :=
  match m with
  | .mk vd vr fs =>
    if vd then
      (setDblStrictAt vr fs 1 q.1).bind fun fs1 =>
      (setDblStrictAt vr fs1 2 q.2.1).bind fun fs2 =>
      (setDblStrictAt vr fs2 3 q.2.2.1).bind fun fs3 =>
      (setDblStrictAt vr fs3 4 q.2.2.2).map (Msg.mk vd vr)
    else none

/-- The Color branch of UpdateMsg (MessageWidget.cc:1026-1038): writes the
colour widget's four spin-box values into descriptor fields 1..4 ("FIXME:
skipping header") via `SetFloat`. -/
def updateColorMsg (m : Msg) (r g b a : Dbl) : Option Msg :=
  match m with
  | .mk vd vr fs =>
    if vd then
      (setFltAt vr fs 1 r).bind fun fs1 =>
      (setFltAt vr fs1 2 g).bind fun fs2 =>
      (setFltAt vr fs2 3 b).bind fun fs3 =>
      (setFltAt vr fs3 4 a).map (Msg.mk vd vr)
    else none

/-- The Density branch of UpdateMsg (MessageWidget.cc:1039-1052):
`FindFieldByName("density")` then `SetDouble`; a missing field means
`SetDouble` is handed a null descriptor, a crash. -/
def updateDensityMsg (m : Msg) (d : Dbl) : Option Msg :=
  match m with
  | .mk vd vr fs =>
    if vd then
      match fs.findIdx? (fun f =>
          match f with
          | .mk n _ _ _ => n = "density"
          | .null => false) with
      | none => none
      | some i => (setDblStrictAt vr fs i d).map (Msg.mk vd vr)
    else none

/-- The loop of the Pose branch of UpdateMsg (MessageWidget.cc:963-1012) over
the pose message's fields.  `spin` holds the six spin-box values of the
bound widget when it is a pose widget: the code reads all six through
unchecked `qobject_cast`s as soon as it meets a message-typed field, so a
non-pose widget is a crash at that point.  `q` is the quaternion obtained
from the Euler spin boxes (`e2q` applied at the call site). -/
def updatePoseFold (spin : Option ((Dbl × Dbl × Dbl) × (Dbl × Dbl × Dbl × Dbl)))
    (vr : Bool) (fs : List MField) : Option (List MField) :=
  match fs with
  | [] => some []
  | .null :: _ => none
  | .mk n isRep hb val :: rest =>
    match val with
    | .fMessage tn sub =>
      if tn = "Vector3d" then
        match spin with
        | none => none
        | some pv =>
          if vr && !isRep then
            (updateVec3Msg sub pv.1).bind fun sub' =>
            (updatePoseFold spin vr rest).map
              (.mk n isRep hb (.fMessage tn sub') :: ·)
          else none
      else if tn = "Quaternion" then
        match spin with
        | none => none
        | some pv =>
          if vr && !isRep then
            (updateQuatMsg pv.2 sub).bind fun sub' =>
            (updatePoseFold spin vr rest).map
              (.mk n isRep hb (.fMessage tn sub') :: ·)
          else none
      else
        (updatePoseFold spin vr rest).map (.mk n isRep hb val :: ·)
    | _ => (updatePoseFold spin vr rest).map (.mk n isRep hb val :: ·)

/-- The Pose branch of UpdateMsg (MessageWidget.cc:954-1013).  `e2q` abstracts
the Euler-to-quaternion conversion `math::Quaterniond(roll, pitch, yaw)`;
its result is `(x, y, z, w)`. -/
def updatePoseMsg (e2q : Dbl × Dbl × Dbl → Dbl × Dbl × Dbl × Dbl) (w : Widget)
    (m : Msg) : Option Msg :=
  match m with
  | .mk vd vr fs =>
    if vd then
      let spin := match w.val with
        | .wPose x y z ro pi ya => some ((x, y, z), e2q (ro, pi, ya))
        | _ => none
      (updatePoseFold spin vr fs).map (Msg.mk vd vr)
    else none

mutual
/-- MessageWidget::UpdateMsg (MessageWidget.cc:843-1087): read the current
widget values back into the message.  A null descriptor returns at once;
`e2q` abstracts `math::Quaterniond(roll, pitch, yaw)`. -/
def updateMsg (e2q : Dbl × Dbl × Dbl → Dbl × Dbl × Dbl × Dbl) (reg : Registry)
    (m : Msg) (pname : String) : Option Msg :=
  match m with
  | .mk vd vr fs =>
    if vd then (updateFields e2q reg vr fs pname).map (Msg.mk vd vr)
    else some (.mk vd vr fs)
termination_by sizeOf m

/-- The field loop of UpdateMsg (MessageWidget.cc:851-1086): a null field
descriptor or a null reflection returns, leaving the remaining fields
untouched; repeated fields, fields with no widget bound at their scoped name
and fields bound to read-only widgets are skipped. -/
def updateFields (e2q : Dbl × Dbl × Dbl → Dbl × Dbl × Dbl × Dbl)
    (reg : Registry) (vr : Bool) (fs : List MField) (pname : String) :
    Option (List MField) :=
  match fs with
  | [] => some []
  | .null :: rest => some (.null :: rest)
  | .mk fname isRep hasBit val :: rest =>
    if !vr then some (.mk fname isRep hasBit val :: rest)
    else if isRep then
      (updateFields e2q reg vr rest pname).map (.mk fname isRep hasBit val :: ·)
    else
      let scopedName := scopedNameOf pname fname
      match findW reg scopedName with
      | none =>
        (updateFields e2q reg vr rest pname).map (.mk fname isRep hasBit val :: ·)
      | some cw =>
        if widgetReadOnly reg scopedName then
          (updateFields e2q reg vr rest pname).map
            (.mk fname isRep hasBit val :: ·)
        else
          match updateFVal e2q reg cw scopedName val with
          | none => none
          | some val' =>
            (updateFields e2q reg vr rest pname).map
              (.mk fname isRep hasBit val' :: ·)
termination_by sizeOf fs

/-- The switch of UpdateMsg (MessageWidget.cc:881-1085) for one singular
field bound to the writable widget `cw`: the new field value.  Scalar fields
take the widget value through the `QVariant` conversions; a string field
whose widget has neither a line edit nor a plain-text edit is left
untouched, as is an enum field whose widget's first sub-widget is not a
combo box.  A Geometry field bound to a non-geometry widget would copy a
default-constructed message; that corner (unreachable through `Parse`) is
modelled as leaving the field unchanged.  Pose/Vector3d/Color/Density fields
bound to widgets of another kind crash on unchecked casts (`none`).  An enum
value absent from the enum descriptor is logged and ignored.  A generic
nested message recurses. -/
def updateFVal (e2q : Dbl × Dbl × Dbl → Dbl × Dbl × Dbl × Dbl)
    (reg : Registry) (cw : Widget) (scopedName : String) (val : FieldVal) :
    Option FieldVal :=
  match val with
  | .fDouble _ => some (.fDouble (wvToDouble cw.val))
  | .fFloat _ => some (.fFloat (wvToDouble cw.val))
  | .fInt64 _ => some (.fInt64 (wvToInt cw.val))
  | .fUInt64 _ => some (.fUInt64 (wvToUInt cw.val))
  | .fInt32 _ => some (.fInt32 (wvToInt cw.val))
  | .fUInt32 _ => some (.fUInt32 (wvToUInt cw.val))
  | .fBool _ => some (.fBool (wvToBool cw.val))
  | .fString s =>
    match cw.val with
    | .wString s' => some (.fString s')
    | _ => some (.fString s)
  | .fEnum cur vals =>
    match cw.val with
    | .wEnum items idx =>
      let valueStr := currentTextAt items idx
      if vals.contains valueStr then some (.fEnum valueStr vals)
      else some (.fEnum cur vals)
    | _ => some (.fEnum cur vals)
  | .fOther => some .fOther
  | .fMessage tn sub =>
    if tn = "Geometry" then
      match cw.val with
      | .wGeometry g => some (.fMessage tn g)
      | _ => some (.fMessage tn sub)
    else if tn = "Pose" then
      (updatePoseMsg e2q cw sub).map (.fMessage tn ·)
    else if tn = "Vector3d" then
      match cw.val with
      | .wVector3 x y z => (updateVec3Msg sub (x, y, z)).map (.fMessage tn ·)
      | _ => none
    else if tn = "Color" then
      match cw.val with
      | .wColor r g b a => (updateColorMsg sub r g b a).map (.fMessage tn ·)
      | _ => none
    else if tn = "Density" then
      match cw.val with
      | .wDensity d => (updateDensityMsg sub d).map (.fMessage tn ·)
      | _ => none
    else (updateMsg e2q reg sub scopedName).map (.fMessage tn ·)
termination_by sizeOf val
end

/-- Qt QEvent MaxUser (65535). -/
def qeventMaxUser : Int := 65535

/-- ignition::gui::events::Render::kType (GuiEvents.hh:53). -/
def renderKType : Int := qeventMaxUser

/-- ignition::gui::events::SnapIntervals::kType (GuiEvents.hh:83). -/
def snapIntervalsKType : Int := qeventMaxUser - 1

/-- ignition::gui::events::SpawnFromDescription::kType (GuiEvents.hh:100). -/
def spawnFromDescriptionKType : Int := qeventMaxUser - 2

/-- ignition::gui::events::SpawnFromPath::kType (GuiEvents.hh:120). -/
def spawnFromPathKType : Int := qeventMaxUser - 3

/-- ignition::gui::events::HoverToScene::kType (GuiEvents.hh:141). -/
def hoverToSceneKType : Int := qeventMaxUser - 4

/-- ignition::gui::events::LeftClickToScene::kType (GuiEvents.hh:164). -/
def leftClickToSceneKType : Int := qeventMaxUser - 5

/-- ignition::gui::events::RightClickToScene::kType (GuiEvents.hh:186). -/
def rightClickToSceneKType : Int := qeventMaxUser - 6

/-- ignition::gui::events::DropdownMenuEnabled::kType (GuiEvents.hh:208). -/
def dropdownMenuEnabledKType : Int := qeventMaxUser - 7

/-- ignition::gui::events::KeyReleaseOnScene::kType (GuiEvents.hh:274). -/
def keyReleaseOnSceneKType : Int := qeventMaxUser - 8

/-- ignition::gui::events::KeyPressOnScene::kType (GuiEvents.hh:294). -/
def keyPressOnSceneKType : Int := qeventMaxUser - 9

/-- ignition::gui::events::LeftClickOnScene::kType (GuiEvents.hh:232). -/
def leftClickOnSceneKType : Int := qeventMaxUser - 10

/-- ignition::gui::events::RightClickOnScene::kType (GuiEvents.hh:255). -/
def rightClickOnSceneKType : Int := qeventMaxUser - 11

/-- The type tags of all event classes of the ignition::gui::events namespace
(GuiEvents.hh:41-303), in declaration order. -/
def guiEventKTypes : List Int :=
  [renderKType, snapIntervalsKType, spawnFromDescriptionKType,
   spawnFromPathKType, hoverToSceneKType, leftClickToSceneKType,
   rightClickToSceneKType, dropdownMenuEnabledKType, keyReleaseOnSceneKType,
   keyPressOnSceneKType, leftClickOnSceneKType, rightClickOnSceneKType]

/-- Modelled from the spec: the IgnRenderer state of the render bridge
(`Scene3D.cc` is not among the sources, only `Scene3D.hh`): the
`initialized` guard flag (Scene3D.hh:172). -/
structure RendererState where
  initialized : Bool

/-- Modelled from the spec: IgnRenderer::Initialize (declared Scene3D.hh:98)
"sets up the render-engine scene/camera once; idempotent guard flag";
"initialization failure (e.g., engine/scene not found) logs and leaves the
component uninitialized".  `engineOk` abstracts whether the named render
engine and scene can be found. -/
def initRenderer (engineOk : Bool) (s : RendererState) : RendererState :=
  if s.initialized then s else { initialized := engineOk }

/-- Modelled from the spec: IgnRenderer::Render (declared Scene3D.hh:95)
renders one frame to the offscreen texture; "subsequent render calls are
no-ops" while uninitialized.  The flag returned is whether a frame was
produced. -/
def renderFrame (s : RendererState) : RendererState × Bool :=
  if s.initialized then (s, true) else (s, false)

/-- Modelled from the spec: RenderThread::RenderNext (declared Scene3D.hh:214)
initializes on demand, renders, and emits TextureReady (Scene3D.hh:226)
exactly when a frame was produced. -/
def renderNext (engineOk : Bool) (s : RendererState) : RendererState × Bool :=
  renderFrame (initRenderer engineOk s)

/-- A sequence of `n` RenderNext calls under a constant engine-lookup
outcome: final state, and whether TextureReady was ever emitted. -/
def renderLoop (engineOk : Bool) (s : RendererState) : Nat → RendererState × Bool
  | 0 => (s, false)
  | n + 1 =>
    let p := renderNext engineOk s
    let q := renderLoop engineOk p.1 n
    (q.1, p.2 || q.2)

theorem findW_append_of_some {r : Registry} {n : String} {w : Widget}
    (h : findW r n = some w) (s : Registry) : findW (r ++ s) n = some w := by
  induction r with
  | nil => simp [findW] at h
  | cons p r ih =>
    obtain ⟨k, u⟩ := p
    by_cases hk : k = n
    · simpa [findW, hk] using h
    · simp only [findW, hk, if_false, List.cons_append, if_neg hk] at h ⊢
      exact ih h

theorem findW_append_of_none {r : Registry} {n : String}
    (h : findW r n = none) (s : Registry) : findW (r ++ s) n = findW s n := by
  induction r with
  | nil => simp
  | cons p r ih =>
    obtain ⟨k, u⟩ := p
    by_cases hk : k = n
    · simp [findW, hk] at h
    · simp only [findW, hk, if_false, List.cons_append, if_neg hk] at h ⊢
      exact ih h

theorem findW_singleton (k n : String) (w : Widget) :
    findW [(k, w)] n = if k = n then some w else none := by
  simp [findW]

theorem findW_updateW (r : Registry) (n : String) (f : Widget → Widget) :
    findW (updateW r n f) n = (findW r n).map f := by
  induction r with
  | nil => simp [findW, updateW]
  | cons p r ih =>
    obtain ⟨k, u⟩ := p
    by_cases hk : k = n
    · simp [findW, updateW, hk]
    · simp [findW, updateW, hk, ih]

theorem findW_updateW_ne (r : Registry) (n x : String) (f : Widget → Widget)
    (h : x ≠ n) : findW (updateW r n f) x = findW r x := by
  induction r with
  | nil => simp [updateW]
  | cons p r ih =>
    obtain ⟨k, u⟩ := p
    by_cases hk : k = n
    · subst hk
      simp [findW, updateW, Ne.symm h, ih]
    · simp [findW, updateW, hk, ih]

theorem findTextIdx_not_mem {items : List String} {t : String}
    (h : t ∉ items) : findTextIdx items t = -1 := by
  have hn : items.findIdx? (· = t) = none :=
    List.findIdx?_eq_none_iff.2 fun x hx => by
      simp only [decide_eq_false_iff_not]
      exact fun hxt => h (hxt ▸ hx)
  simp [findTextIdx, hn]

theorem findIdx_aux_mem {t : String} :
    ∀ (l : List String) (i : Nat), t ∈ l →
      ∃ j : Nat, l.findIdx? (· = t) i = some (i + j) ∧ l.get? j = some t := by
  intro l
  induction l with
  | nil => intro i h; simp at h
  | cons a l ih =>
    intro i h
    by_cases ha : a = t
    · exact ⟨0, by simp [List.findIdx?_cons, ha], by simp [ha]⟩
    · have hmem : t ∈ l := by
        rcases List.mem_cons.1 h with h' | h'
        · exact absurd h'.symm ha
        · exact h'
      obtain ⟨j, hj, hg⟩ := ih (i + 1) hmem
      refine ⟨j + 1, ?_, by simpa using hg⟩
      rw [List.findIdx?_cons, if_neg (by simp [ha]), hj]
      congr 1
      omega

theorem findTextIdx_mem {items : List String} {t : String} (h : t ∈ items) :
    ∃ j : Nat, findTextIdx items t = (j : Int) ∧ items.get? j = some t := by
  obtain ⟨j, hj, hg⟩ := findIdx_aux_mem items 0 h
  exact ⟨j, by simp [findTextIdx, hj], hg⟩

/-- C10: for every registry state, `MessageWidget::AddPropertyWidget` called
with an empty name or with a null child pointer returns false and leaves the
scoped-name registry unchanged. -/
theorem addPropertyWidget_rejects_invalid (reg : Registry) (name : String)
    (child : Option Widget) :
    addPropertyWidget reg "" child = (reg, false) ∧
      addPropertyWidget reg name none = (reg, false) := by
  refine ⟨?_, rfl⟩
  cases child with
  | none => rfl
  | some c => simp [addPropertyWidget]

/-- C3: scoped names are unique.  Adding a widget under a name that is already
registered returns false and leaves the registry — and hence the widget
previously stored under that name — unchanged; adding a non-null widget
under a fresh non-empty name returns true and appends exactly that one
entry: the new name maps to the new widget, every other name is unaffected,
and the registry grows by one. -/
theorem addPropertyWidget_unique (reg : Registry) (name : String) (c : Widget) :
    (∀ w, findW reg name = some w →
      addPropertyWidget reg name (some c) = (reg, false) ∧
        findW reg name = some w) ∧
    (findW reg name = none → name ≠ "" →
      addPropertyWidget reg name (some c) =
        (reg ++ [(name, { c with scopedName := name })], true) ∧
      findW (reg ++ [(name, { c with scopedName := name })]) name =
        some { c with scopedName := name } ∧
      (∀ n, n ≠ name →
        findW (reg ++ [(name, { c with scopedName := name })]) n = findW reg n) ∧
      (reg ++ [(name, { c with scopedName := name })]).length =
        reg.length + 1) := by
  constructor
  · intro w hw
    refine ⟨?_, hw⟩
    by_cases hname : name = ""
    · subst hname; simp [addPropertyWidget]
    · simp [addPropertyWidget, hname, hw]
  · intro hfresh hname
    refine ⟨by simp [addPropertyWidget, hname, hfresh], ?_, ?_, by simp⟩
    · rw [findW_append_of_none hfresh, findW_singleton, if_pos rfl]
    · intro n hn
      cases hfw : findW reg n with
      | some w => exact findW_append_of_some hfw _
      | none =>
        rw [findW_append_of_none hfw, findW_singleton, if_neg (Ne.symm hn)]

/-- Witness for `addPropertyWidget_unique` at a concrete registry. -/
theorem addPropertyWidget_unique_witness :
    (findW [("a", Widget.mk WVal.wGroup true "a")] "a" =
        some (Widget.mk WVal.wGroup true "a")) ∧
    (addPropertyWidget [("a", Widget.mk WVal.wGroup true "a")] "a"
        (some (Widget.mk (WVal.wBool true) true "")) =
      ([("a", Widget.mk WVal.wGroup true "a")], false)) ∧
    (findW ([] : Registry) "b" = none ∧
      addPropertyWidget ([] : Registry) "b"
          (some (Widget.mk (WVal.wBool true) true "")) =
        ([("b", Widget.mk (WVal.wBool true) true "b")], true)) := by
  refine ⟨rfl, ?_, rfl, ?_⟩
  · exact ((addPropertyWidget_unique [("a", Widget.mk WVal.wGroup true "a")] "a"
      (Widget.mk (WVal.wBool true) true "")).1 _ rfl).1
  · exact ((addPropertyWidget_unique ([] : Registry) "b"
      (Widget.mk (WVal.wBool true) true "")).2 rfl (by decide)).1

/-- C8: every event class of ignition::gui::events has a type tag of the form
QEvent::MaxUser - k with 0 ≤ k ≤ 11, and the twelve tags are pairwise
distinct, so no two event kinds collide. -/
theorem guiEventKTypes_distinct :
    guiEventKTypes.Nodup ∧
      ∀ t ∈ guiEventKTypes, ∃ k : Fin 12, t = qeventMaxUser - (k : Nat) := by
  constructor
  · decide
  · decide

/-- C9: once Initialize has failed (the named render engine or scene is not
found, `engineOk = false`), the renderer stays uninitialized and every
subsequent Render is a no-op, so no sequence of RenderNext calls ever emits
TextureReady. -/
theorem renderLoop_failed_never_ready (n : Nat) (s : RendererState)
    (h : s.initialized = false) : renderLoop false s n = (s, false) := by
  induction n with
  | zero => rfl
  | succ n ih =>
    have hs : renderNext false s = (s, false) := by
      obtain ⟨b⟩ := s
      simp only [RendererState.initialized] at h
      subst h
      rfl
    simp [renderLoop, hs, ih]

/-- Witness for `renderLoop_failed_never_ready`. -/
theorem renderLoop_failed_never_ready_witness :
    (RendererState.mk false).initialized = false ∧
      renderLoop false (RendererState.mk false) 5 =
        (RendererState.mk false, false) :=
  ⟨rfl, renderLoop_failed_never_ready 5 (RendererState.mk false) rfl⟩

/-- C4: for an enum widget registered under a scoped name, AddItemEnumWidget
with some item text followed by SetEnumWidgetValue with that exact text
returns true and selects an item carrying that text; SetEnumWidgetValue with
a string not present in the widget's item list returns false and leaves the
current selection unchanged. -/
theorem enumWidget_addItem_setValue (reg : Registry) (name txt s : String)
    (items : List String) (idx : Int) (en : Bool) (sn : String)
    (hw : findW reg name = some (Widget.mk (WVal.wEnum items idx) en sn)) :
    (∃ reg', addItemEnumWidget reg name txt = some (reg', true) ∧
      (setEnumWidgetValue reg' name txt).2 = true ∧
      ∃ j : Nat, findW (setEnumWidgetValue reg' name txt).1 name =
          some (Widget.mk (WVal.wEnum (items ++ [txt]) (j : Int)) en sn) ∧
        (items ++ [txt]).get? j = some txt) ∧
    (s ∉ items → (setEnumWidgetValue reg name s).2 = false ∧
      findW (setEnumWidgetValue reg name s).1 name =
        some (Widget.mk (WVal.wEnum items idx) en sn)) := by
  constructor
  · have hfind : findW (updateW reg name (fun u => { u with val := WVal.wEnum (items ++ [txt]) (addItemIdx items idx) })) name = some (Widget.mk (WVal.wEnum (items ++ [txt]) (addItemIdx items idx)) en sn) := by
      rw [findW_updateW, hw]; rfl
    obtain ⟨j, hj, hg⟩ := @findTextIdx_mem (items ++ [txt]) txt (by simp)
    have hnn : ¬ ((j : Int) < 0) := by omega
    refine ⟨updateW reg name (fun u => { u with val := WVal.wEnum (items ++ [txt]) (addItemIdx items idx) }), ?_, ?_, ?_⟩
    · simp only [addItemEnumWidget, hw]
    · simp [setEnumWidgetValue, hfind, updateEnumWidget, hj, hnn]
    · refine ⟨j, ?_, hg⟩
      simp only [setEnumWidgetValue, hfind, updateEnumWidget, hj]
      rw [if_neg hnn, findW_updateW, hfind]
      rfl
  · intro hs
    have hneg : findTextIdx items s = -1 := findTextIdx_not_mem hs
    constructor
    · simp [setEnumWidgetValue, hw, updateEnumWidget, hneg]
    · simp only [setEnumWidgetValue, hw, updateEnumWidget, hneg]
      rw [if_pos (by norm_num), findW_updateW, hw]
      rfl

/-- Witness for `enumWidget_addItem_setValue` at a concrete registry. -/
theorem enumWidget_addItem_setValue_witness :
    (findW [("e", Widget.mk (WVal.wEnum ["A"] 0) true "e")] "e" =
      some (Widget.mk (WVal.wEnum ["A"] 0) true "e")) ∧
    ((∃ reg', addItemEnumWidget [("e", Widget.mk (WVal.wEnum ["A"] 0) true "e")]
          "e" "B" = some (reg', true) ∧
        (setEnumWidgetValue reg' "e" "B").2 = true ∧
        ∃ j : Nat, findW (setEnumWidgetValue reg' "e" "B").1 "e" =
            some (Widget.mk (WVal.wEnum (["A"] ++ ["B"]) (j : Int)) true "e") ∧
          (["A"] ++ ["B"]).get? j = some "B") ∧
      ("Z" ∉ ["A"] →
        (setEnumWidgetValue [("e", Widget.mk (WVal.wEnum ["A"] 0) true "e")]
            "e" "Z").2 = false ∧
        findW (setEnumWidgetValue
            [("e", Widget.mk (WVal.wEnum ["A"] 0) true "e")] "e" "Z").1 "e" =
          some (Widget.mk (WVal.wEnum ["A"] 0) true "e"))) :=
  ⟨rfl, enumWidget_addItem_setValue _ "e" "B" "Z" ["A"] 0 true "e" rfl⟩

/-- A field that fails the `HasField` test (a null field descriptor carries no
value either). -/
def MField.unset : MField → Bool
  | .null => true
  | .mk _ _ hb _ => !hb

theorem parseFields_all_unset (q2e : Dbl × Dbl × Dbl × Dbl → Dbl × Dbl × Dbl) :
    ∀ (fs : List MField) (reg : Registry) (vr : Bool) (pname : String)
      (level : Nat), (∀ f ∈ fs, MField.unset f = true) →
      parseFields q2e reg vr fs true pname level false = some (reg, false) := by
  intro fs
  induction fs with
  | nil => intro reg vr pname level _; simp [parseFields]
  | cons f rest ih =>
    intro reg vr pname level h
    match f with
    | .null => rw [parseFields.eq_2]
    | .mk fname isRep hb val =>
      have hb0 : hb = false := by
        have := h _ (List.mem_cons_self _ _)
        simpa [MField.unset] using this
      subst hb0
      have hrest : ∀ g ∈ rest, MField.unset g = true :=
        fun g hg => h g (List.mem_cons_of_mem _ hg)
      cases vr with
      | false => rw [parseFields.eq_def]; simp
      | true =>
        cases isRep with
        | true =>
          rw [parseFields.eq_def]
          simpa using ih reg true pname level hrest
        | false =>
          rw [parseFields.eq_def]
          simpa using ih reg true pname level hrest

/-- C2: for a message in which no fields are set, Parse with `_update = true`
skips every field because each fails the HasField test: it creates no new
widgets, leaves the scoped-name registry (and with it every stored widget
value) unchanged, and returns a null widget. -/
theorem parse_update_unset_noop (q2e : Dbl × Dbl × Dbl × Dbl → Dbl × Dbl × Dbl)
    (reg : Registry) (m : Msg) (pname : String) (level : Nat)
    (h : ∀ f ∈ m.fields, MField.unset f = true) :
    parseMsg q2e reg m true pname level = some (reg, false) := by
  match m with
  | .mk vd vr fs =>
    cases vd with
    | false => rw [parseMsg.eq_def]; simp
    | true =>
      rw [parseMsg.eq_def]
      simpa using
        parseFields_all_unset q2e fs reg vr pname level
          (by simpa [Msg.fields] using h)

/-- Witness for `parse_update_unset_noop`: a message with an unset bool field
and an unset Pose field. -/
theorem parse_update_unset_noop_witness :
    (∀ f ∈ (Msg.mk true true [MField.mk "x" false false (FieldVal.fBool true),
        MField.mk "p" false false
          (FieldVal.fMessage "Pose" (Msg.mk true true []))]).fields,
      MField.unset f = true) ∧
    parseMsg (fun _ => (Dbl.num 0, Dbl.num 0, Dbl.num 0)) []
        (Msg.mk true true [MField.mk "x" false false (FieldVal.fBool true),
          MField.mk "p" false false
            (FieldVal.fMessage "Pose" (Msg.mk true true []))]) true "" 0 =
      some ([], false) :=
  ⟨by decide, parse_update_unset_noop _ [] _ "" 0 (by decide)⟩

/-- C7: a null pointer encountered at the start of the recursive walk — a
null message descriptor, a null field descriptor in first position, or a
null reflection — short-circuits the whole walk for that subtree: Parse
returns null with the registry unchanged, and UpdateMsg returns leaving the
message unchanged (and the registry, which it never writes, untouched). -/
theorem parse_update_null_shortcircuit
    (q2e : Dbl × Dbl × Dbl × Dbl → Dbl × Dbl × Dbl)
    (e2q : Dbl × Dbl × Dbl → Dbl × Dbl × Dbl × Dbl) (reg : Registry) (m : Msg)
    (update : Bool) (pname : String) (level : Nat)
    (h : m.validDesc = false ∨ m.fields.head? = some .null ∨
      m.validRefl = false) :
    parseMsg q2e reg m update pname level = some (reg, false) ∧
      updateMsg e2q reg m pname = some m := by
  match m with
  | .mk vd vr fs =>
    simp only [Msg.validDesc, Msg.fields, Msg.validRefl] at h
    cases vd with
    | false =>
      rw [parseMsg.eq_def, updateMsg.eq_def]
      simp
    | true =>
      rcases h with h | h | h
      · exact absurd h (by simp)
      · match fs, h with
        | .null :: rest, _ =>
          rw [parseMsg.eq_def, updateMsg.eq_def]
          simp only [if_true]
          rw [parseFields.eq_2, updateFields.eq_2]
          simp
      · subst h
        match fs with
        | [] =>
          rw [parseMsg.eq_def, updateMsg.eq_def]
          simp only [if_true]
          rw [parseFields.eq_1, updateFields.eq_1]
          simp
        | .null :: rest =>
          rw [parseMsg.eq_def, updateMsg.eq_def]
          simp only [if_true]
          rw [parseFields.eq_2, updateFields.eq_2]
          simp
        | .mk fname isRep hb val :: rest =>
          rw [parseMsg.eq_def, updateMsg.eq_def]
          simp only [if_true]
          rw [parseFields.eq_def, updateFields.eq_def]
          simp

/-- Witness for `parse_update_null_shortcircuit`: a message whose descriptor
is null. -/
theorem parse_update_null_shortcircuit_witness :
    ((Msg.mk false true [MField.mk "x" false true (FieldVal.fBool true)]).validDesc = false ∨
      (Msg.mk false true [MField.mk "x" false true (FieldVal.fBool true)]).fields.head? = some .null ∨
      (Msg.mk false true [MField.mk "x" false true (FieldVal.fBool true)]).validRefl = false) ∧
    (parseMsg (fun _ => (Dbl.num 0, Dbl.num 0, Dbl.num 0)) []
        (Msg.mk false true [MField.mk "x" false true (FieldVal.fBool true)])
        false "" 0 = some ([], false) ∧
      updateMsg (fun _ => (Dbl.num 0, Dbl.num 0, Dbl.num 0, Dbl.num 0)) []
          (Msg.mk false true [MField.mk "x" false true (FieldVal.fBool true)])
          "" =
        some (Msg.mk false true [MField.mk "x" false true (FieldVal.fBool true)])) :=
  ⟨Or.inl rfl, parse_update_null_shortcircuit _ _ [] _ false "" 0 (Or.inl rfl)⟩

/-- C6: the Quaternion sub-message of a Pose field is read purely by
position: descriptor fields at indices 1 through 4 (the assumed header at
index 0 is skipped and never inspected) are taken as x, y, z, w whatever
the fields are named, and the quaternion is built as (w, x, y, z); likewise
ParseVector3d reads descriptor fields at indices 1 through 3 as x, y, z.
The result is determined solely by the field positions, never by names. -/
theorem quat_vector3_read_by_position (f0 : MField) (n1 n2 n3 n4 : String)
    (h1 h2 h3 h4 : Bool) (a b c d : Dbl) (rest : List MField) :
    parseQuatVal (Msg.mk true true (f0 :: MField.mk n1 false h1 (.fDouble a) ::
        MField.mk n2 false h2 (.fDouble b) ::
        MField.mk n3 false h3 (.fDouble c) ::
        MField.mk n4 false h4 (.fDouble d) :: rest)) = some (d, a, b, c) ∧
    parseVec3 (Msg.mk true true (f0 :: MField.mk n1 false h1 (.fDouble a) ::
        MField.mk n2 false h2 (.fDouble b) ::
        MField.mk n3 false h3 (.fDouble c) :: rest)) = some (a, b, c) :=
  ⟨rfl, rfl⟩

theorem updateFields_get? (e2q : Dbl × Dbl × Dbl → Dbl × Dbl × Dbl × Dbl)
    (reg : Registry) (pname : String) :
    ∀ (fs fs' : List MField), updateFields e2q reg true fs pname = some fs' →
      MField.null ∉ fs →
      ∀ (i : Nat) (fname : String) (hb : Bool) (v : FieldVal),
        fs.get? i = some (.mk fname false hb v) →
        ((widgetReadOnly reg (scopedNameOf pname fname) = true →
            fs'.get? i = some (.mk fname false hb v)) ∧
          (findW reg (scopedNameOf pname fname) = none →
            fs'.get? i = some (.mk fname false hb v)) ∧
          ∀ cw, findW reg (scopedNameOf pname fname) = some cw →
            cw.enabled = true →
            ∃ v', updateFVal e2q reg cw (scopedNameOf pname fname) v = some v' ∧
              fs'.get? i = some (.mk fname false hb v')) := by
  intro fs
  induction fs with
  | nil => intro fs' h hnn i fname hb v hf; simp at hf
  | cons g rest ih =>
    intro fs' h hnn i fname hb v hf
    have hnn' : MField.null ∉ rest := fun hx => hnn (List.mem_cons_of_mem _ hx)
    match g, hnn with
    | .null, hnul => exact absurd (List.mem_cons_self _ _) hnul
    | .mk gname gRep ghb gval, _ =>
      rw [updateFields.eq_3] at h
      rw [if_neg (by simp)] at h
      cases gRep with
      | true =>
        rw [if_pos rfl] at h
        rcases Option.map_eq_some'.1 h with ⟨rest', hrest', rfl⟩
        match i, hf with
        | 0, hf => simp at hf
        | Nat.succ i, hf =>
          exact ih rest' hrest' hnn' i fname hb v (by simpa using hf)
      | false =>
        rw [if_neg (by simp)] at h
        simp only at h
        cases hfw : findW reg (scopedNameOf pname gname) with
        | none =>
          rw [hfw] at h
          rcases Option.map_eq_some'.1 h with ⟨rest', hrest', rfl⟩
          match i, hf with
          | 0, hf =>
            have hg : MField.mk gname false ghb gval =
                MField.mk fname false hb v := by simpa using hf
            injection hg with e1 _ e3 e4
            subst e1; subst e3; subst e4
            refine ⟨fun _ => rfl, fun _ => rfl, fun cw hcw _ => ?_⟩
            rw [hfw] at hcw; exact absurd hcw (by simp)
          | Nat.succ i, hf =>
            have hrec := ih rest' hrest' hnn' i fname hb v (by simpa using hf)
            exact ⟨fun hx => (hrec.1 hx), fun hx => (hrec.2.1 hx),
              fun cw hcw he => (hrec.2.2 cw hcw he)⟩
        | some cw' =>
          rw [hfw] at h
          simp only [] at h
          cases hro : widgetReadOnly reg (scopedNameOf pname gname) with
          | true =>
            rw [if_pos (by rw [hro])] at h
            rcases Option.map_eq_some'.1 h with ⟨rest', hrest', rfl⟩
            match i, hf with
            | 0, hf =>
              have hg : MField.mk gname false ghb gval =
                  MField.mk fname false hb v := by simpa using hf
              injection hg with e1 _ e3 e4
              subst e1; subst e3; subst e4
              refine ⟨fun _ => rfl, fun _ => rfl, fun cw hcw he => ?_⟩
              rw [hfw] at hcw
              have : cw' = cw := by simpa using hcw
              subst this
              rw [widgetReadOnly, hfw] at hro
              simp [he] at hro
            | Nat.succ i, hf =>
              have hrec := ih rest' hrest' hnn' i fname hb v (by simpa using hf)
              exact ⟨fun hx => (hrec.1 hx), fun hx => (hrec.2.1 hx),
                fun cw hcw he => (hrec.2.2 cw hcw he)⟩
          | false =>
            rw [if_neg (by rw [hro]; simp)] at h
            cases huv : updateFVal e2q reg cw' (scopedNameOf pname gname) gval with
            | none => rw [huv] at h; exact absurd h (by simp)
            | some val' =>
              rw [huv] at h
              rcases Option.map_eq_some'.1 h with ⟨rest', hrest', rfl⟩
              match i, hf with
              | 0, hf =>
                have hg : MField.mk gname false ghb gval =
                    MField.mk fname false hb v := by simpa using hf
                injection hg with e1 _ e3 e4
                subst e1; subst e3; subst e4
                refine ⟨fun hx => ?_, fun hx => ?_, fun cw hcw he => ?_⟩
                · rw [hro] at hx; exact absurd hx (by simp)
                · rw [hfw] at hx; exact absurd hx (by simp)
                · rw [hfw] at hcw
                  have : cw' = cw := by simpa using hcw
                  subst this
                  exact ⟨val', huv, rfl⟩
              | Nat.succ i, hf =>
                have hrec := ih rest' hrest' hnn' i fname hb v (by simpa using hf)
                exact ⟨fun hx => (hrec.1 hx), fun hx => (hrec.2.1 hx),
                  fun cw hcw he => (hrec.2.2 cw hcw he)⟩

/-- C5: for every message and every field whose scoped name is bound to a
read-only widget, UpdateMsg skips that field, so the field's value in the
message after UpdateMsg equals its value before; a field bound to a writable
widget receives the widget's value (for the scalar types, through the
QVariant conversions: doubles and floats take the spin-box value, 64-bit
integer fields take the 32-bit widget value, strings take the edit text,
bools the check box). -/
theorem updateMsg_readonly_and_writable
    (e2q : Dbl × Dbl × Dbl → Dbl × Dbl × Dbl × Dbl) (reg : Registry)
    (m m' : Msg) (pname : String) (hm : updateMsg e2q reg m pname = some m')
    (hd : m.validDesc = true) (hr : m.validRefl = true)
    (hnn : MField.null ∉ m.fields) (i : Nat) (fname : String) (hb : Bool)
    (v : FieldVal) (hf : m.fields.get? i = some (.mk fname false hb v)) :
    (widgetReadOnly reg (scopedNameOf pname fname) = true →
      m'.fields.get? i = some (.mk fname false hb v)) ∧
    (∀ cw, findW reg (scopedNameOf pname fname) = some cw →
      cw.enabled = true →
      ((∀ x q, v = .fDouble x → cw.val = .wDouble q →
          m'.fields.get? i = some (.mk fname false hb (.fDouble (.num q)))) ∧
       (∀ x q, v = .fFloat x → cw.val = .wDouble q →
          m'.fields.get? i = some (.mk fname false hb (.fFloat (.num q)))) ∧
       (∀ x j, v = .fInt64 x → cw.val = .wInt j →
          m'.fields.get? i = some (.mk fname false hb (.fInt64 (wrap32s j)))) ∧
       (∀ x j, v = .fUInt64 x → cw.val = .wUInt j →
          m'.fields.get? i = some (.mk fname false hb (.fUInt64 (wrap32u j)))) ∧
       (∀ x j, v = .fInt32 x → cw.val = .wInt j →
          m'.fields.get? i = some (.mk fname false hb (.fInt32 (wrap32s j)))) ∧
       (∀ x j, v = .fUInt32 x → cw.val = .wUInt j →
          m'.fields.get? i = some (.mk fname false hb (.fUInt32 (wrap32u j)))) ∧
       (∀ x bb, v = .fBool x → cw.val = .wBool bb →
          m'.fields.get? i = some (.mk fname false hb (.fBool bb))) ∧
       (∀ x str, v = .fString x → cw.val = .wString str →
          m'.fields.get? i = some (.mk fname false hb (.fString str))))) := by
  match m with
  | .mk vd vr fs =>
    simp only [Msg.validDesc, Msg.validRefl, Msg.fields] at hd hr hnn hf
    subst hd; subst hr
    rw [updateMsg.eq_def] at hm
    simp only [] at hm
    rw [if_pos trivial] at hm
    rcases Option.map_eq_some'.1 hm with ⟨fs', hfs', rfl⟩
    simp only [Msg.fields]
    have H := updateFields_get? e2q reg pname fs fs' hfs' hnn i fname hb v hf
    refine ⟨H.1, fun cw hcw he => ?_⟩
    obtain ⟨v', hv', hget⟩ := H.2.2 cw hcw he
    refine ⟨?_, ?_, ?_, ?_, ?_, ?_, ?_, ?_⟩
    · intro x q hx hq; subst hx
      rw [updateFVal.eq_def] at hv'
      simp only [hq, wvToDouble, Option.some.injEq] at hv'
      rw [← hv'] at hget; exact hget
    · intro x q hx hq; subst hx
      rw [updateFVal.eq_def] at hv'
      simp only [hq, wvToDouble, Option.some.injEq] at hv'
      rw [← hv'] at hget; exact hget
    · intro x j hx hq; subst hx
      rw [updateFVal.eq_def] at hv'
      simp only [hq, wvToInt, Option.some.injEq] at hv'
      rw [← hv'] at hget; exact hget
    · intro x j hx hq; subst hx
      rw [updateFVal.eq_def] at hv'
      simp only [hq, wvToUInt, Option.some.injEq] at hv'
      rw [← hv'] at hget; exact hget
    · intro x j hx hq; subst hx
      rw [updateFVal.eq_def] at hv'
      simp only [hq, wvToInt, Option.some.injEq] at hv'
      rw [← hv'] at hget; exact hget
    · intro x j hx hq; subst hx
      rw [updateFVal.eq_def] at hv'
      simp only [hq, wvToUInt, Option.some.injEq] at hv'
      rw [← hv'] at hget; exact hget
    · intro x bb hx hq; subst hx
      rw [updateFVal.eq_def] at hv'
      simp only [hq, wvToBool, Option.some.injEq] at hv'
      rw [← hv'] at hget; exact hget
    · intro x str hx hq; subst hx
      rw [updateFVal.eq_def] at hv'
      simp only [hq, Option.some.injEq] at hv'
      rw [← hv'] at hget; exact hget

/-- Witness for `updateMsg_readonly_and_writable`: a double field bound to a
read-only widget keeps its value, a string field bound to a writable widget
takes the widget's text. -/
theorem updateMsg_readonly_and_writable_witness :
    ∃ m' : Msg,
      updateMsg (fun _ => (Dbl.num 0, Dbl.num 0, Dbl.num 0, Dbl.num 0))
          [("a", Widget.mk (WVal.wDouble 7) false "a"),
           ("b", Widget.mk (WVal.wString "s") true "b")]
          (Msg.mk true true
            [MField.mk "a" false true (FieldVal.fDouble (Dbl.num 1)),
             MField.mk "b" false true (FieldVal.fString "t")]) "" = some m' ∧
      m'.fields.get? 0 =
        some (MField.mk "a" false true (FieldVal.fDouble (Dbl.num 1))) ∧
      m'.fields.get? 1 =
        some (MField.mk "b" false true (FieldVal.fString "s")) := by
  have hm : updateMsg (fun _ => (Dbl.num 0, Dbl.num 0, Dbl.num 0, Dbl.num 0))
      [("a", Widget.mk (WVal.wDouble 7) false "a"),
       ("b", Widget.mk (WVal.wString "s") true "b")]
      (Msg.mk true true
        [MField.mk "a" false true (FieldVal.fDouble (Dbl.num 1)),
         MField.mk "b" false true (FieldVal.fString "t")]) "" =
      some (Msg.mk true true
        [MField.mk "a" false true (FieldVal.fDouble (Dbl.num 1)),
         MField.mk "b" false true (FieldVal.fString "s")]) := by
    rw [updateMsg.eq_def]
    simp [updateFields.eq_3, updateFields.eq_1, updateFVal.eq_def, findW,
      widgetReadOnly, scopedNameOf]
  refine ⟨_, hm, ?_, ?_⟩
  · exact (updateMsg_readonly_and_writable _ _ _ _ "" hm rfl rfl
      (by simp [Msg.fields]) 0 "a" true _ rfl).1 (by rfl)
  · have H := (updateMsg_readonly_and_writable _ _ _ _ "" hm rfl rfl
      (by simp [Msg.fields]) 1 "b" true _ rfl).2
      (Widget.mk (WVal.wString "s") true "b") (by rfl) rfl
    exact H.2.2.2.2.2.2.2 "t" "s" rfl rfl

/-- The name of a field (empty for a null field descriptor). -/
def fieldNameOf : MField → String
  | .null => ""
  | .mk n _ _ _ => n

/-- Scalar fields whose widget round trip is lossless: singular, of a
non-message type, with finite double/float values (neither NaN nor an
infinity, both of which Parse replaces by 0 since `math::equal(value,
value)` is false for them), 64-bit integer values within the corresponding
32-bit widget range, 32-bit values in range, and enum values whose current
name is among the descriptor's value names (a protobuf invariant). -/
def scalarRoundOk : MField → Bool
  | .null => false
  | .mk _ isRep _ v =>
    !isRep &&
      match v with
      | .fDouble (.num _) => true
      | .fFloat (.num _) => true
      | .fInt64 x => decide (wrap32s x = x)
      | .fUInt64 x => decide (x < 2 ^ 32)
      | .fInt32 x => decide (wrap32s x = x)
      | .fUInt32 x => decide (x < 2 ^ 32)
      | .fBool _ => true
      | .fString _ => true
      | .fEnum cur vals => vals.contains cur
      | .fOther => true
      | _ => false

/-- The widget Parse creates for a fresh scalar field (none for the
unhandled scalar types, which get no widget). -/
def leafWidgetOf : FieldVal → Option Widget
  | .fDouble v => some (Widget.mk (.wDouble (sanitizeD v)) true "")
  | .fFloat v => some (Widget.mk (.wDouble (sanitizeD v)) true "")
  | .fInt64 x => some (Widget.mk (.wInt (wrap32s x)) true "")
  | .fUInt64 x => some (Widget.mk (.wUInt (wrap32u x)) true "")
  | .fInt32 x => some (Widget.mk (.wInt x) true "")
  | .fUInt32 x => some (Widget.mk (.wUInt x) true "")
  | .fBool b => some (Widget.mk (.wBool b) true "")
  | .fString s => some (Widget.mk (.wString s) true "")
  | .fEnum cur vals => some (updateEnumWidget (freshEnumWidget vals) cur).1
  | _ => none

/-- The registry effect of one freshly parsed scalar field. -/
def scalarRegStep (reg : Registry) : MField → Registry
  | .null => reg
  | .mk n _ _ v =>
    match leafWidgetOf v with
    | some w => (addPropertyWidget reg n (some w)).1
    | none => reg

/-- The registry after Parse has walked a list of fresh scalar fields. -/
def scalarRegAfter (reg : Registry) (fs : List MField) : Registry :=
  fs.foldl scalarRegStep reg

theorem scopedNameOf_empty (n : String) : scopedNameOf "" n = n := by
  simp [scopedNameOf]

theorem findW_addPW_pres_some {reg : Registry} {x : String} {u : Widget}
    (h : findW reg x = some u) (n : String) (c : Option Widget) :
    findW ((addPropertyWidget reg n c).1) x = some u := by
  cases c with
  | none => exact h
  | some c =>
    by_cases hn : n = ""
    · simp [addPropertyWidget, hn, h]
    · rcases hfw : (findW reg n).isSome with hv | hv
      · simp only [addPropertyWidget, if_neg hn, hfw, if_false]
        exact findW_append_of_some h _
      · simp [addPropertyWidget, hn, hfw, h]

theorem findW_addPW_pres_none {reg : Registry} {x : String}
    (h : findW reg x = none) (n : String) (c : Option Widget)
    (hx : n ≠ x ∨ x = "") :
    findW ((addPropertyWidget reg n c).1) x = none := by
  cases c with
  | none => exact h
  | some c =>
    by_cases hn : n = ""
    · simp [addPropertyWidget, hn, h]
    · have hnx : n ≠ x := by
        rcases hx with hx | hx
        · exact hx
        · rw [hx]; exact hn
      cases hfw : findW reg n with
      | some u' => simp [addPropertyWidget, hn, hfw, h]
      | none =>
        have hap : findW (reg ++ [(n, { c with scopedName := n })]) x = none := by
          rw [findW_append_of_none h, findW_singleton, if_neg hnx]
        simp [addPropertyWidget, hn, hfw, hap]

theorem findW_scalarRegStep_some {reg : Registry} {x : String} {u : Widget}
    (h : findW reg x = some u) (g : MField) :
    findW (scalarRegStep reg g) x = some u := by
  match g with
  | .null => exact h
  | .mk n r hb v =>
    cases hlw : leafWidgetOf v with
    | none => simpa [scalarRegStep, hlw] using h
    | some w =>
      simp only [scalarRegStep, hlw]
      exact findW_addPW_pres_some h n (some w)

theorem findW_scalarRegStep_none {reg : Registry} {x : String}
    (h : findW reg x = none) (g : MField) (hx : fieldNameOf g ≠ x ∨ x = "") :
    findW (scalarRegStep reg g) x = none := by
  match g with
  | .null => exact h
  | .mk n r hb v =>
    cases hlw : leafWidgetOf v with
    | none => simpa [scalarRegStep, hlw] using h
    | some w =>
      simp only [scalarRegStep, hlw]
      exact findW_addPW_pres_none h n (some w) (by simpa [fieldNameOf] using hx)

theorem findW_scalarRegAfter_some {x : String} {u : Widget} :
    ∀ (fs : List MField) (reg : Registry), findW reg x = some u →
      findW (scalarRegAfter reg fs) x = some u := by
  intro fs
  induction fs with
  | nil => intro reg h; exact h
  | cons g rest ih =>
    intro reg h
    exact ih _ (findW_scalarRegStep_some h g)

theorem findW_scalarRegAfter_none {x : String} :
    ∀ (fs : List MField) (reg : Registry), findW reg x = none →
      (∀ g ∈ fs, fieldNameOf g ≠ x ∨ x = "") →
      findW (scalarRegAfter reg fs) x = none := by
  intro fs
  induction fs with
  | nil => intro reg h _; exact h
  | cons g rest ih =>
    intro reg h hc
    exact ih _ (findW_scalarRegStep_none h g (hc _ (List.mem_cons_self _ _)))
      fun g' hg' => hc _ (List.mem_cons_of_mem _ hg')

theorem parseFieldNonRec_fresh (q2e : Dbl × Dbl × Dbl × Dbl → Dbl × Dbl × Dbl)
    (reg : Registry) (n : String) (r hbit : Bool) (v : FieldVal)
    (hv : scalarRoundOk (.mk n false hbit v) = true) :
    parseFieldNonRec q2e reg n none v =
      some (scalarRegStep reg (.mk n r hbit v), (leafWidgetOf v).isSome) := by
  rcases v with d | d | x | x | x | x | b | str | ⟨cur, vals⟩ | ⟨tn, sub⟩ | _
  · rcases d with _ | _ | _ | q
    · simp [scalarRoundOk] at hv
    · simp [scalarRoundOk] at hv
    · simp [scalarRoundOk] at hv
    · rfl
  · rcases d with _ | _ | _ | q
    · simp [scalarRoundOk] at hv
    · simp [scalarRoundOk] at hv
    · simp [scalarRoundOk] at hv
    · rfl
  · rfl
  · rfl
  · rfl
  · rfl
  · rfl
  · rfl
  · rfl
  · simp [scalarRoundOk] at hv
  · rfl

theorem parseFields_scalar (q2e : Dbl × Dbl × Dbl × Dbl → Dbl × Dbl × Dbl) :
    ∀ (fs : List MField) (reg : Registry) (acc : Bool),
      (∀ f ∈ fs, scalarRoundOk f = true) →
      (∀ f ∈ fs, findW reg (fieldNameOf f) = none) →
      (fs.map fieldNameOf).Nodup →
      ∃ b, parseFields q2e reg true fs false "" 0 acc =
        some (scalarRegAfter reg fs, b) := by
  intro fs
  induction fs with
  | nil => intro reg acc _ _ _; exact ⟨acc, by rw [parseFields.eq_1]; rfl⟩
  | cons g rest ih =>
    intro reg acc hsc hfr hnd
    match g with
    | .null =>
      have := hsc _ (List.mem_cons_self _ _)
      simp [scalarRoundOk] at this
    | .mk gname gRep ghb gval =>
      have hscg := hsc _ (List.mem_cons_self _ _)
      have hrep : gRep = false := by
        cases gRep
        · rfl
        · simp [scalarRoundOk] at hscg
      subst hrep
      have hnotmsg : ∀ (tn : String) (sub : Msg),
          gval = FieldVal.fMessage tn sub → False := by
        intro tn sub hh
        subst hh
        simp [scalarRoundOk] at hscg
      have hfrg : findW reg gname = none := hfr _ (List.mem_cons_self _ _)
      have hscr : ∀ f ∈ rest, scalarRoundOk f = true :=
        fun f hf => hsc _ (List.mem_cons_of_mem _ hf)
      rw [List.map_cons] at hnd
      have hnin := (List.nodup_cons.1 hnd).1
      have hndr := (List.nodup_cons.1 hnd).2
      have hfr' : ∀ f ∈ rest,
          findW (scalarRegStep reg (.mk gname false ghb gval))
            (fieldNameOf f) = none := by
        intro f hf
        refine findW_scalarRegStep_none (hfr _ (List.mem_cons_of_mem _ hf)) _
          (Or.inl ?_)
        intro he
        exact hnin (he ▸ List.mem_map_of_mem fieldNameOf hf)
      obtain ⟨b, hbp⟩ := ih (scalarRegStep reg (.mk gname false ghb gval))
        (acc || (leafWidgetOf gval).isSome) hscr hfr' hndr
      refine ⟨b, ?_⟩
      rw [parseFields.eq_4]
      · rw [if_neg (by simp), if_neg (by simp), if_neg (by simp)]
        rw [scopedNameOf_empty, hfrg]
        rw [parseFieldNonRec_fresh q2e reg gname false ghb gval hscg]
        show parseFields q2e (scalarRegStep reg (.mk gname false ghb gval))
          true rest false "" 0 (acc || (leafWidgetOf gval).isSome) = _
        rw [hbp]
        rfl
      · exact hnotmsg

theorem findW_scalarRegAfter_lookup :
    ∀ (fs : List MField) (reg : Registry),
      (∀ f ∈ fs, findW reg (fieldNameOf f) = none) →
      (fs.map fieldNameOf).Nodup →
      ∀ gname gRep ghb gval, (MField.mk gname gRep ghb gval) ∈ fs →
        gname ≠ "" →
        findW (scalarRegAfter reg fs) gname =
          (leafWidgetOf gval).map (fun w => { w with scopedName := gname }) := by
  intro fs
  induction fs with
  | nil => intro reg _ _ gname gRep ghb gval hmem; simp at hmem
  | cons g rest ih =>
    intro reg hfr hnd gname gRep ghb gval hmem hne
    rw [List.map_cons] at hnd
    have hnin := (List.nodup_cons.1 hnd).1
    have hndr := (List.nodup_cons.1 hnd).2
    rcases List.mem_cons.1 hmem with heq | hmem'
    · subst heq
      have hfrg : findW reg gname = none := hfr _ (List.mem_cons_self _ _)
      have hfold : scalarRegAfter reg (MField.mk gname gRep ghb gval :: rest) =
          scalarRegAfter (scalarRegStep reg (.mk gname gRep ghb gval)) rest :=
        rfl
      rw [hfold]
      cases hlw : leafWidgetOf gval with
      | some w =>
        have h1 : (addPropertyWidget reg gname (some w)).1 =
            reg ++ [(gname, { w with scopedName := gname })] := by
          simp [addPropertyWidget, hne, hfrg]
        have hstep : findW (scalarRegStep reg (.mk gname gRep ghb gval))
            gname = some { w with scopedName := gname } := by
          simp only [scalarRegStep, hlw, h1]
          rw [findW_append_of_none hfrg, findW_singleton, if_pos rfl]
        rw [findW_scalarRegAfter_some rest _ hstep]
        rfl
      | none =>
        have hstep : scalarRegStep reg (.mk gname gRep ghb gval) = reg := by
          simp [scalarRegStep, hlw]
        rw [hstep]
        rw [findW_scalarRegAfter_none rest reg hfrg ?_]
        · rfl
        · intro g' hg'
          refine Or.inl ?_
          intro he
          have hx := List.mem_map_of_mem fieldNameOf hg'
          rw [he] at hx
          exact hnin hx
    · have hfr' : ∀ f ∈ rest,
          findW (scalarRegStep reg g) (fieldNameOf f) = none := by
        intro f hf
        refine findW_scalarRegStep_none (hfr _ (List.mem_cons_of_mem _ hf)) _
          (Or.inl ?_)
        intro he
        exact hnin (he ▸ List.mem_map_of_mem fieldNameOf hf)
      exact ih (scalarRegStep reg g) hfr' hndr gname gRep ghb gval hmem' hne

theorem leafWidgetOf_enabled :
    ∀ (v : FieldVal) (w : Widget), leafWidgetOf v = some w →
      w.enabled = true := by
  intro v w hw
  rcases v with d | d | x | x | x | x | b | str | ⟨cur, vals⟩ | ⟨tn, sub⟩ | _ <;>
    simp only [leafWidgetOf] at hw
  all_goals try (cases hw)
  all_goals try rfl
  simp only [updateEnumWidget, freshEnumWidget]
  split
  · rfl
  · rfl

theorem updateFVal_leaf_roundtrip (e2q : Dbl × Dbl × Dbl → Dbl × Dbl × Dbl × Dbl)
    (reg : Registry) (n : String) (hbit : Bool) (v : FieldVal) (w : Widget)
    (hv : scalarRoundOk (.mk n false hbit v) = true)
    (hw : leafWidgetOf v = some w) :
    updateFVal e2q reg { w with scopedName := n } n v = some v := by
  rcases v with d | d | x | x | x | x | b | str | ⟨cur, vals⟩ | ⟨tn, sub⟩ | _
  · rcases d with _ | _ | _ | q
    · simp [scalarRoundOk] at hv
    · simp [scalarRoundOk] at hv
    · simp [scalarRoundOk] at hv
    · simp only [leafWidgetOf, sanitizeD, Option.some.injEq] at hw
      subst hw
      rw [updateFVal.eq_def]
      simp [wvToDouble]
  · rcases d with _ | _ | _ | q
    · simp [scalarRoundOk] at hv
    · simp [scalarRoundOk] at hv
    · simp [scalarRoundOk] at hv
    · simp only [leafWidgetOf, sanitizeD, Option.some.injEq] at hw
      subst hw
      rw [updateFVal.eq_def]
      simp [wvToDouble]
  · have hx : wrap32s x = x := by simpa [scalarRoundOk] using hv
    simp only [leafWidgetOf, Option.some.injEq] at hw
    subst hw
    rw [updateFVal.eq_def]
    simp [wvToInt, hx]
  · have hx : x < 4294967296 := by simpa [scalarRoundOk] using hv
    simp only [leafWidgetOf, Option.some.injEq] at hw
    subst hw
    rw [updateFVal.eq_def]
    simp [wvToUInt, wrap32u, Nat.mod_eq_of_lt hx]
  · have hx : wrap32s x = x := by simpa [scalarRoundOk] using hv
    simp only [leafWidgetOf, Option.some.injEq] at hw
    subst hw
    rw [updateFVal.eq_def]
    simp [wvToInt, hx]
  · have hx : x < 4294967296 := by simpa [scalarRoundOk] using hv
    simp only [leafWidgetOf, Option.some.injEq] at hw
    subst hw
    rw [updateFVal.eq_def]
    simp [wvToUInt, wrap32u, Nat.mod_eq_of_lt hx]
  · simp only [leafWidgetOf, Option.some.injEq] at hw
    subst hw
    rw [updateFVal.eq_def]
    simp [wvToBool]
  · simp only [leafWidgetOf, Option.some.injEq] at hw
    subst hw
    rw [updateFVal.eq_def]
  · have hmem : cur ∈ vals := by
      have : vals.contains cur = true := by simpa [scalarRoundOk] using hv
      simpa using this
    obtain ⟨j, hj, hg⟩ := @findTextIdx_mem vals cur hmem
    have hnn : ¬ ((j : Int) < 0) := by omega
    simp only [leafWidgetOf, Option.some.injEq, updateEnumWidget,
      freshEnumWidget, hj] at hw
    rw [if_neg hnn] at hw
    subst hw
    rw [updateFVal.eq_def]
    have hg' : vals[j]? = some cur := by simpa using hg
    have hct : currentTextAt vals (j : Int) = cur := by
      simp [currentTextAt, hnn, hg']
    simp only [hct]
    have hcont : vals.contains cur = true := by simpa [scalarRoundOk] using hv
    simp [hcont]
  · simp [scalarRoundOk] at hv
  · simp [leafWidgetOf] at hw

theorem updateFields_scalar_roundtrip
    (e2q : Dbl × Dbl × Dbl → Dbl × Dbl × Dbl × Dbl) (R : Registry) :
    ∀ (fs : List MField),
      (∀ f ∈ fs, scalarRoundOk f = true) →
      (∀ gname gRep ghb gval, (MField.mk gname gRep ghb gval) ∈ fs →
        (gname = "" → findW R "" = none) ∧
        (gname ≠ "" → findW R gname =
          (leafWidgetOf gval).map (fun w => { w with scopedName := gname }))) →
      updateFields e2q R true fs "" = some fs := by
  intro fs
  induction fs with
  | nil => intro _ _; rw [updateFields.eq_1]
  | cons g rest ih =>
    intro hsc hlk
    match g with
    | .null =>
      have := hsc _ (List.mem_cons_self _ _)
      simp [scalarRoundOk] at this
    | .mk gname gRep ghb gval =>
      have hscg := hsc _ (List.mem_cons_self _ _)
      have hrep : gRep = false := by
        cases gRep
        · rfl
        · simp [scalarRoundOk] at hscg
      subst hrep
      have hrest := ih (fun f hf => hsc _ (List.mem_cons_of_mem _ hf))
        (fun a bb c d hm => hlk a bb c d (List.mem_cons_of_mem _ hm))
      rw [updateFields.eq_3]
      rw [if_neg (by simp), if_neg (by simp)]
      simp only [scopedNameOf_empty]
      by_cases hne : gname = ""
      · subst hne
        have h0 : findW R "" = none :=
          (hlk "" false ghb gval (List.mem_cons_self _ _)).1 rfl
        rw [h0]
        show Option.map _ (updateFields e2q R true rest "") = _
        rw [hrest]
        rfl
      · have hfind := (hlk gname false ghb gval (List.mem_cons_self _ _)).2 hne
        cases hlw : leafWidgetOf gval with
        | none =>
          rw [hlw] at hfind
          simp only [Option.map_none'] at hfind
          rw [hfind]
          show Option.map _ (updateFields e2q R true rest "") = _
          rw [hrest]
          rfl
        | some w =>
          rw [hlw] at hfind
          simp only [Option.map_some'] at hfind
          rw [hfind]
          have hro : widgetReadOnly R gname = false := by
            rw [widgetReadOnly, hfind]
            have hen := leafWidgetOf_enabled gval w hlw
            simp [hen]
          show (if widgetReadOnly R gname = true then
              Option.map (fun x => MField.mk gname false ghb gval :: x)
                (updateFields e2q R true rest "")
            else
              match updateFVal e2q R { w with scopedName := gname } gname gval with
              | none => none
              | some val' =>
                Option.map (fun x => MField.mk gname false ghb val' :: x)
                  (updateFields e2q R true rest "")) = _
          rw [hro]
          rw [if_neg (by simp)]
          rw [updateFVal_leaf_roundtrip e2q R gname ghb gval w hscg hlw]
          show Option.map _ (updateFields e2q R true rest "") = _
          rw [hrest]
          rfl

/-- C1 (amended): for a message whose schema contains only scalar
(non-repeated, non-message) fields with distinct names, and whose values
survive the widgets' storage — doubles and floats finite (not NaN and not
an infinity: `math::equal(value, value)` is false for both, so Parse zeroes
them), int64/uint64 values within the 32-bit range of the spin boxes, enum
values drawn from the descriptor — Parse followed immediately by UpdateMsg
yields a message equal to the input.  Without these conditions the round
trip is lossy (see the counterexample with a uint64 field holding 2^32). -/
theorem parse_update_scalar_roundtrip
    (q2e : Dbl × Dbl × Dbl × Dbl → Dbl × Dbl × Dbl)
    (e2q : Dbl × Dbl × Dbl → Dbl × Dbl × Dbl × Dbl) (m : Msg)
    (hd : m.validDesc = true) (hr : m.validRefl = true)
    (hs : ∀ f ∈ m.fields, scalarRoundOk f = true)
    (hn : (m.fields.map fieldNameOf).Nodup) :
    ∃ (reg : Registry) (b : Bool),
      parseMsg q2e [] m false "" 0 = some (reg, b) ∧
        updateMsg e2q reg m "" = some m := by
  match m with
  | .mk vd vr fs =>
    simp only [Msg.validDesc, Msg.validRefl, Msg.fields] at hd hr hs hn
    subst hd; subst hr
    obtain ⟨b, hbp⟩ := parseFields_scalar q2e fs [] false hs (fun f _ => rfl) hn
    refine ⟨scalarRegAfter [] fs, b, ?_, ?_⟩
    · rw [parseMsg.eq_def]
      simp only []
      rw [if_pos trivial]
      exact hbp
    · rw [updateMsg.eq_def]
      simp only []
      rw [if_pos trivial]
      rw [updateFields_scalar_roundtrip e2q (scalarRegAfter [] fs) fs hs ?_]
      · rfl
      · intro gname gRep ghb gval hmem
        constructor
        · intro h0
          exact findW_scalarRegAfter_none fs [] rfl fun g' _ => Or.inr rfl
        · intro hne
          exact findW_scalarRegAfter_lookup fs [] (fun f _ => rfl) hn
            gname gRep ghb gval hmem hne

/-- Witness for `parse_update_scalar_roundtrip`: an int32 and a string
field round-trip unchanged. -/
theorem parse_update_scalar_roundtrip_witness :
    ((∀ f ∈ (Msg.mk true true [MField.mk "a" false true (FieldVal.fInt32 5),
        MField.mk "b" false true (FieldVal.fString "hi")]).fields,
      scalarRoundOk f = true) ∧
      ((Msg.mk true true [MField.mk "a" false true (FieldVal.fInt32 5),
        MField.mk "b" false true
          (FieldVal.fString "hi")]).fields.map fieldNameOf).Nodup) ∧
    ∃ (reg : Registry) (b : Bool),
      parseMsg (fun _ => (Dbl.num 0, Dbl.num 0, Dbl.num 0)) []
          (Msg.mk true true [MField.mk "a" false true (FieldVal.fInt32 5),
            MField.mk "b" false true (FieldVal.fString "hi")]) false "" 0 =
        some (reg, b) ∧
      updateMsg (fun _ => (Dbl.num 0, Dbl.num 0, Dbl.num 0, Dbl.num 0)) reg
          (Msg.mk true true [MField.mk "a" false true (FieldVal.fInt32 5),
            MField.mk "b" false true (FieldVal.fString "hi")]) "" =
        some (Msg.mk true true [MField.mk "a" false true (FieldVal.fInt32 5),
          MField.mk "b" false true (FieldVal.fString "hi")]) :=
  ⟨⟨by decide, by decide⟩,
    parse_update_scalar_roundtrip _ _ _ rfl rfl (by decide) (by decide)⟩

/-- Counterexample to C1 as stated: a message whose only field is a scalar
uint64 holding 2^32.  Parse stores the value in a 32-bit unsigned widget,
truncating it to 0, and UpdateMsg writes 0 back, so the round trip does not
return the input message.  The same happens for a non-finite double: a field
holding positive infinity fails the `math::equal(value, value)` check, Parse
stores 0 in the widget, and the round trip returns 0 instead of infinity. -/
theorem parse_update_roundtrip_cex :
    (∃ reg : Registry,
      parseMsg (fun _ => (Dbl.num 0, Dbl.num 0, Dbl.num 0)) []
          (Msg.mk true true
            [MField.mk "u" false true (FieldVal.fUInt64 4294967296)])
          false "" 0 = some (reg, true) ∧
      updateMsg (fun _ => (Dbl.num 0, Dbl.num 0, Dbl.num 0, Dbl.num 0)) reg
          (Msg.mk true true
            [MField.mk "u" false true (FieldVal.fUInt64 4294967296)]) "" =
        some (Msg.mk true true
          [MField.mk "u" false true (FieldVal.fUInt64 0)]) ∧
      Msg.mk true true [MField.mk "u" false true (FieldVal.fUInt64 0)] ≠
        Msg.mk true true
          [MField.mk "u" false true (FieldVal.fUInt64 4294967296)]) ∧
    ∃ reg2 : Registry,
      parseMsg (fun _ => (Dbl.num 0, Dbl.num 0, Dbl.num 0)) []
          (Msg.mk true true
            [MField.mk "d" false true (FieldVal.fDouble Dbl.pinf)])
          false "" 0 = some (reg2, true) ∧
      updateMsg (fun _ => (Dbl.num 0, Dbl.num 0, Dbl.num 0, Dbl.num 0)) reg2
          (Msg.mk true true
            [MField.mk "d" false true (FieldVal.fDouble Dbl.pinf)]) "" =
        some (Msg.mk true true
          [MField.mk "d" false true (FieldVal.fDouble (Dbl.num 0))]) ∧
      Msg.mk true true
          [MField.mk "d" false true (FieldVal.fDouble (Dbl.num 0))] ≠
        Msg.mk true true
          [MField.mk "d" false true (FieldVal.fDouble Dbl.pinf)] := by
  constructor
  · refine ⟨[("u", Widget.mk (WVal.wUInt 0) true "u")], ?_, ?_, ?_⟩
    · rw [parseMsg.eq_def]
      simp [parseFields.eq_4, parseFields.eq_1, parseFieldNonRec, parseLeaf,
        addPropertyWidget, findW, scopedNameOf, wrap32u]
    · rw [updateMsg.eq_def]
      simp [updateFields.eq_3, updateFields.eq_1, updateFVal.eq_def, findW,
        widgetReadOnly, scopedNameOf, wvToUInt, wrap32u]
    · intro h
      simp at h
  · refine ⟨[("d", Widget.mk (WVal.wDouble 0) true "d")], ?_, ?_, ?_⟩
    · rw [parseMsg.eq_def]
      simp [parseFields.eq_4, parseFields.eq_1, parseFieldNonRec, parseLeaf,
        addPropertyWidget, findW, scopedNameOf, sanitizeD]
    · rw [updateMsg.eq_def]
      simp [updateFields.eq_3, updateFields.eq_1, updateFVal.eq_def, findW,
        widgetReadOnly, scopedNameOf, wvToDouble]
    · intro h
      simp at h
